import Mathlib

/-!
Verification of the resumable training orchestrator from
`backend/python-rl/ppo_trainer.py` and `backend/python-rl/metrics_tracker.py`.

The Python code is shallowly embedded: strings are `List Char`, JSON files are
modelled at the parsed level (`Option (Option α)`: `none` = file absent,
`some none` = file present but not parseable JSON, `some (some a)` = parsed
content `a`), and raised exceptions / `sys.exit` are `Except` errors.
-/

namespace HideSeek

/-! ### String utilities (models of the Python `str` operations used) -/

/-- Model of Python `hay.startswith(needle)` on character lists. -/
def startsWithSeq : List Char → List Char → Bool
  | [], _ => true
  | _ :: _, [] => false
  | a :: as, b :: bs => a == b && startsWithSeq as bs

/-- Model of Python `needle in hay` (substring test) on character lists. -/
def containsSeq (needle : List Char) : List Char → Bool
  | [] => needle.isEmpty
  | c :: rest => startsWithSeq needle (c :: rest) || containsSeq needle rest

/-- Model of Python `s.split(c)` for a single-character separator. -/
def splitOnChar (c : Char) : List Char → List (List Char)
  | [] => [[]]
  | x :: xs =>
    match splitOnChar c xs with
    | [] => [[x]]
    | h :: t => if x == c then [] :: h :: t else (x :: h) :: t

/-- Model of Python `int(s)` restricted to nonnegative decimal digit strings,
which are the only checkpoint-name components the trainer ever generates;
any other input raises `ValueError` in Python, modelled as `none`. -/
def pyToNat (s : List Char) : Option Nat :=
  if s.isEmpty then none
  else if s.all Char.isDigit then
    some (s.foldl (fun a c => a * 10 + (c.toNat - 48)) 0)
  else none

/-- Fuel-driven decimal rendering, most significant digit first
(structural recursion so that concrete instances evaluate by `decide`). -/
def toDecAux : Nat → Nat → List Char → List Char
  | 0, _, acc => acc
  | fuel + 1, n, acc =>
    if n < 10 then Nat.digitChar n :: acc
    else toDecAux fuel (n / 10) (Nat.digitChar (n % 10) :: acc)

/-- Decimal digit characters of `n`, most significant first (model of `str(n)`
for a nonnegative `n`). -/
def toDec (n : Nat) : List Char := toDecAux (n + 1) n []

/-- Model of the zero padding performed by the Python format `f"{n:06d}"`
(for nonnegative `n`): left-pad the decimal rendering with zeros to width `w`. -/
def padZeros (w : Nat) (s : List Char) : List Char :=
  List.replicate (w - s.length) '0' ++ s

/-- The directory name `f"checkpoint_{iteration:06d}"` built by
`CheckpointManager.save_checkpoint` and by the interrupt-path resume hint. -/
def checkpointName (iteration : Nat) : List Char :=
  "checkpoint_".toList ++ padZeros 6 (toDec iteration)

/-! ### Data model -/

/-- The live configuration fields read by the orchestrator
(`config['environment'][...]`, `config['ppo'][...]`, `config['training'][...]`,
flattened). -/
structure Config where
  observation_size : Nat
  max_steps : Nat
  train_batch_size : Nat
  total_episodes : Nat
  checkpoint_freq : Nat
deriving DecidableEq

/-- The checkpoint `metadata.json` document, restricted to the keys the resume
path reads (`dict.get` on an absent key yields `None`, modelled as `none`).
`otherPresent` records whether the dictionary holds any further keys (the
hyperparameter fields written by `save_checkpoint`, for instance), which only
matters for the Python emptiness test `if not checkpoint_metadata`. -/
structure Metadata where
  observation_size : Option Nat := none
  action_size : Option Nat := none
  max_steps : Option Nat := none
  train_batch_size : Option Nat := none
  total_episodes : Option Nat := none
  interrupted : Option Bool := none
  final : Option Bool := none
  otherPresent : Bool := false
deriving DecidableEq

/-- Python truthiness test `if not checkpoint_metadata` on the dictionary. -/
def Metadata.isEmptyDict (m : Metadata) : Bool :=
  m.observation_size.isNone && m.action_size.isNone && m.max_steps.isNone &&
  m.train_batch_size.isNone && m.total_episodes.isNone &&
  m.interrupted.isNone && m.final.isNone && !m.otherPresent

/-- A hard-mismatch message appended to `issues` by
`validate_checkpoint_config` (the formatted string is abstracted to its
constructor and the two numbers interpolated into it). -/
inductive Issue where
  | obsMismatch (saved current : Nat)
  | actionMismatch (saved : Nat)
deriving DecidableEq

/-- A message printed (not returned) by `validate_checkpoint_config`. -/
inductive Warn where
  | noMetadata
  | maxStepsChanged (saved current : Nat)
  | batchChanged (saved current : Nat)
deriving DecidableEq

/-- The pair returned by `validate_checkpoint_config` together with the
warnings it prints. -/
structure ValidationResult where
  ok : Bool
  issues : List Issue
  warns : List Warn
deriving DecidableEq

/-- Model of `validate_checkpoint_config(checkpoint_metadata, current_config)`.
Each Python guard has the shape `if saved and saved != current`, so an absent
(`None`) or zero saved value never triggers the check (Python truthiness). -/
def validateCheckpointConfig (m : Metadata) (cfg : Config) : ValidationResult :=
  if m.isEmptyDict then ⟨true, [], [.noMetadata]⟩
  else
    let obsIssues : List Issue :=
      match m.observation_size with
      | some v => if v ≠ 0 ∧ v ≠ cfg.observation_size
                  then [.obsMismatch v cfg.observation_size] else []
      | none => []
    let actIssues : List Issue :=
      match m.action_size with
      | some v => if v ≠ 0 ∧ v ≠ 7 then [.actionMismatch v] else []
      | none => []
    let stepWarns : List Warn :=
      match m.max_steps with
      | some v => if v ≠ 0 ∧ v ≠ cfg.max_steps
                  then [.maxStepsChanged v cfg.max_steps] else []
      | none => []
    let batchWarns : List Warn :=
      match m.train_batch_size with
      | some v => if v ≠ 0 ∧ v ≠ cfg.train_batch_size
                  then [.batchChanged v cfg.train_batch_size] else []
      | none => []
    let issues := obsIssues ++ actIssues
    ⟨issues.isEmpty, issues, stepWarns ++ batchWarns⟩

/-- A Python-level failure: `sys.exit(1)` or an uncaught exception. -/
inductive PyFail where
  | exitOne
  | exc
deriving DecidableEq

/-- Model of `CheckpointManager.get_checkpoint_metadata`: an absent
`metadata.json` yields the empty dictionary; a present file is `json.load`ed
with no exception handler, so an unparseable file raises. -/
def getCheckpointMetadata (file : Option (Option Metadata)) : Except PyFail Metadata :=
  match file with
  | none => .ok {}
  | some none => .error .exc
  | some (some m) => .ok m

/-! ### Resume computation (`train`, checkpoint-restoration block) -/

/-- `int(checkpoint_path.name.split('_')[1])` guarded by
`'checkpoint_' in checkpoint_path.name`; `none` covers both the failed
substring test and an exception from the indexing/parse (caught in Python). -/
def parseIterNum (name : List Char) : Option Nat :=
  if containsSeq "checkpoint_".toList name then
    match (splitOnChar '_' name).get? 1 with
    | some comp => pyToNat comp
    | none => none
  else none

/-- The state produced by the restoration block of `train` for one resume. -/
structure ResumeOut where
  episode_offset : Nat
  start_iteration : Nat
  warnedEstimate : Bool
deriving DecidableEq

/-- Model of the episode-offset / start-iteration computation in `train`
(after validation has passed): offset from `metadata.get('total_episodes', 0)`,
then, when the checkpoint name parses, `start_iteration = iteration_num + 1`,
estimating the offset as `iteration_num * episodes_per_iteration` (with a
printed warning) only when the metadata count is zero and the parsed
iteration is positive. -/
def resumeCompute (m : Metadata) (name : List Char) (episodesPerIter : Nat) : ResumeOut :=
  let epOff := m.total_episodes.getD 0
  match parseIterNum name with
  | some n =>
    if epOff = 0 ∧ 0 < n then ⟨n * episodesPerIter, n + 1, true⟩
    else ⟨epOff, n + 1, false⟩
  | none => ⟨epOff, 1, false⟩

/-- The data of a supplied `restore_checkpoint` argument: the parsed view of
its `metadata.json` and the final component of its path. -/
structure RestoreInfo where
  metadataFile : Option (Option Metadata)
  name : List Char

/-- The initialization outcome of `train` before the loop starts. -/
structure InitOut where
  episode_offset : Nat
  start_iteration : Nat
  restoredSnapshot : Bool
  warnedEstimate : Bool
deriving DecidableEq

/-- Model of the restoration block of `train` (lines 417-466): with no restore
argument the offsets stay at their initial values and no snapshot is restored;
otherwise the metadata is loaded and validated (`sys.exit(1)` on a hard
mismatch), the resume state is computed, and `create_ppo_trainer` restores the
learner snapshot. -/
def trainInit (restore : Option RestoreInfo) (cfg : Config) (episodesPerIter : Nat) :
    Except PyFail InitOut :=
  match restore with
  | none => .ok ⟨0, 1, false, false⟩
  | some r =>
    match getCheckpointMetadata r.metadataFile with
    | .error e => .error e
    | .ok m =>
      if (validateCheckpointConfig m cfg).ok then
        let ro := resumeCompute m r.name episodesPerIter
        .ok ⟨ro.episode_offset, ro.start_iteration, true, ro.warnedEstimate⟩
      else .error .exitOne

/-! ### Iteration/episode budget (`train`, lines 409-415) -/

/-- Model of the schedule computation: `episodes_per_iteration =
train_batch_size // max_steps` and `training_iterations = total_episodes //
episodes_per_iteration` plus one on a nonzero remainder.  A zero divisor
raises `ZeroDivisionError` in Python, modelled as `.error`. -/
def computeSchedule (train_batch_size max_steps total_episodes : Nat) :
    Except PyFail (Nat × Nat) :=
  if max_steps = 0 then .error .exc
  else
    let epi := train_batch_size / max_steps
    if epi = 0 then .error .exc
    else
      let ti := total_episodes / epi
      .ok (epi, if total_episodes % epi = 0 then ti else ti + 1)

/-! ### Metrics persistence (`metrics_tracker.py`) -/

/-- One entry of `metrics_history` as assembled by
`MetricsTracker.extract_metrics`.  Statistic values are JSON numbers; they are
modelled over `Int` (the claims settled here never compute with them) and the
timestamp over `List Char`. -/
structure MetricsRecord where
  iteration : Nat
  timestamp : List Char
  episode_len_mean : Int
  episode_reward_mean : Int
  episodes_this_iter : Nat
  total_episodes : Nat
  max_steps : Nat
  seeker_kl : Int
  hider_kl : Int
  seeker_entropy : Int
  hider_entropy : Int
  seeker_loss : Int
  hider_loss : Int
  seeker_vf_loss : Int
  hider_vf_loss : Int
deriving DecidableEq

/-- Model of `MetricsTracker._load_existing_metrics` run at construction:
missing file → empty history; present but unparseable file → the exception is
caught, a warning is printed (second component `true`) and the history stays
empty; parseable file → its full content becomes the in-memory history. -/
def loadExistingMetrics (file : Option (Option (List MetricsRecord))) :
    List MetricsRecord × Bool :=
  match file with
  | none => ([], false)
  | some none => ([], true)
  | some (some h) => (h, false)

/-- Model of `MetricsTracker.save_metrics`: the full in-memory history is
serialized, overwriting the prior file (`json.dump` / `json.load` round-trip
the document, so the on-disk state is the parsed list itself). -/
def saveMetricsFile (history : List MetricsRecord) :
    Option (Option (List MetricsRecord)) :=
  some (some history)

/-! ### Checkpoint index persistence (`CheckpointManager`) -/

/-- One record of `checkpoint_index.json`'s `checkpoints` array, as appended
by `save_checkpoint` (the index entry keeps only these fields; the tags land
in the per-checkpoint `metadata.json`). -/
structure IndexRecord where
  iteration : Nat
  path : List Char
  total_episodes : Nat
deriving DecidableEq

/-- The parsed `checkpoint_index.json` document; `data.get('checkpoints', [])`
tolerates an absent key. -/
structure IndexFile where
  checkpoints : Option (List IndexRecord)
deriving DecidableEq

/-- Model of `CheckpointManager._load_checkpoint_index` run at construction:
a missing index file leaves the history empty, but — unlike the metrics
loader — there is no exception handler around `json.load`, so an unparseable
file raises out of the constructor. -/
def loadCheckpointIndex (file : Option (Option IndexFile)) :
    Except PyFail (List IndexRecord) :=
  match file with
  | none => .ok []
  | some none => .error .exc
  | some (some f) => .ok (f.checkpoints.getD [])

/-! ### The training loop (`train`, lines 483-557) -/

/-- One `save_checkpoint` call observed during a run: the iteration argument,
the `total_episodes` entry of the metrics dictionary passed along, and which
of the `interrupted` / `final` markers that dictionary carries. -/
structure SaveCall where
  iteration : Nat
  total_episodes : Nat
  interruptedTag : Bool
  finalTag : Bool
deriving DecidableEq

/-- The metadata document `save_checkpoint` writes for a save call: the four
load-bearing config fields, the metrics entries, and the hyperparameter
fields (covered by `otherPresent`). -/
def saveMetadata (cfg : Config) (s : SaveCall) : Metadata where
  observation_size := some cfg.observation_size
  action_size := some 7
  max_steps := some cfg.max_steps
  train_batch_size := some cfg.train_batch_size
  total_episodes := some s.total_episodes
  interrupted := if s.interruptedTag then some true else none
  final := if s.finalTag then some true else none
  otherPresent := true

/-- The index record `save_checkpoint` appends for a save call. -/
def saveIndexRecord (s : SaveCall) : IndexRecord :=
  ⟨s.iteration, checkpointName s.iteration, s.total_episodes⟩

/-- How a run of `train` ends. -/
inductive RunStatus where
  | completed
  | interruptedReturn (k : Nat)
deriving DecidableEq

/-- Observable outcome of one run of the `train` loop. -/
structure RunOutcome where
  saves : List SaveCall
  status : RunStatus
  metricsPersisted : Bool
  printedResumeName : Option (List Char)
deriving DecidableEq

/-- The body of `for iteration in range(start_iteration, training_iterations
+ 1)`: each iteration first blocks on `trainer.train()` (where a cooperative
cancellation signal is observed, per the interrupt model `intr`), accumulates
the episode delta, and saves a cadence checkpoint when `iteration %
checkpoint_freq == 0`.  Returns the cadence save calls, the final episode
count, and the iteration at which cancellation arrived, if any. -/
def loopIter (freq : Nat) (deltas : Nat → Nat) (intr : Nat → Bool) :
    List Nat → Nat → List SaveCall × Nat × Option Nat
  | [], total => ([], total, none)
  | i :: rest, total =>
    if intr i then ([], total, some i)
    else
      let t2 := total + deltas i
      let here : List SaveCall :=
        if i % freq == 0 then [⟨i, t2, false, false⟩] else []
      let out := loopIter freq deltas intr rest t2
      (here ++ out.1, out.2)

/-- Model of the `try`/`except KeyboardInterrupt` block of `train`: run the
loop from `start` to `ti`; on normal exit force a final checkpoint tagged
`final=True` at iteration `ti`, on cancellation at iteration `k` force a
checkpoint tagged `interrupted=True` at `k`, print the exact resume name,
and return without re-raising.  Both paths persist the metrics history. -/
def trainLoop (freq ti start offset : Nat) (deltas : Nat → Nat) (intr : Nat → Bool) :
    RunOutcome :=
  let out := loopIter freq deltas intr (List.range' start (ti + 1 - start)) offset
  match out.2.2 with
  | some k =>
    ⟨out.1 ++ [⟨k, out.2.1, true, false⟩], .interruptedReturn k, true,
     some (checkpointName k)⟩
  | none =>
    ⟨out.1 ++ [⟨ti, out.2.1, false, true⟩], .completed, true, none⟩

/-! ### Lemmas about the string utilities -/

theorem startsWithSeq_append (n r : List Char) : startsWithSeq n (n ++ r) = true := by
  induction n with
  | nil => rfl
  | cons a as ih => simp [startsWithSeq, ih]

theorem containsSeq_of_startsWithSeq {needle hay : List Char}
    (h : startsWithSeq needle hay = true) : containsSeq needle hay = true := by
  cases hay with
  | nil =>
    cases needle with
    | nil => rfl
    | cons b bs => simp [startsWithSeq] at h
  | cons c rest => simp [containsSeq, h]

theorem containsSeq_append (needle rest : List Char) :
    containsSeq needle (needle ++ rest) = true :=
  containsSeq_of_startsWithSeq (startsWithSeq_append needle rest)

theorem splitOnChar_ne_nil (c : Char) (l : List Char) : splitOnChar c l ≠ [] := by
  cases l with
  | nil => simp [splitOnChar]
  | cons x xs =>
    simp only [splitOnChar]
    rcases h : splitOnChar c xs with _ | ⟨h', t⟩
    · simp
    · by_cases hx : x == c <;> simp [hx]

theorem splitOnChar_not_mem {c : Char} : ∀ {l : List Char}, c ∉ l →
    splitOnChar c l = [l] := by
  intro l
  induction l with
  | nil => intro _; rfl
  | cons x xs ih =>
    intro h
    have hx : ¬(x == c) = true := by
      simp only [beq_iff_eq]
      intro hxc; exact h (hxc ▸ List.mem_cons_self x xs)
    have hxs : c ∉ xs := fun hm => h (List.mem_cons_of_mem x hm)
    simp only [splitOnChar, ih hxs]
    simp [hx]

theorem splitOnChar_append {c : Char} : ∀ {pre : List Char}, c ∉ pre →
    ∀ post : List Char, splitOnChar c (pre ++ c :: post) = pre :: splitOnChar c post := by
  intro pre
  induction pre with
  | nil =>
    intro _ post
    simp only [List.nil_append, splitOnChar]
    rcases h : splitOnChar c post with _ | ⟨h', t⟩
    · exact absurd h (splitOnChar_ne_nil c post)
    · simp
  | cons x xs ih =>
    intro h post
    have hx : ¬(x == c) = true := by
      simp only [beq_iff_eq]
      intro hxc; exact h (hxc ▸ List.mem_cons_self x xs)
    have hxs : c ∉ xs := fun hm => h (List.mem_cons_of_mem x hm)
    have hrec := ih hxs post
    have hstep : splitOnChar c ((x :: xs) ++ c :: post) =
        match splitOnChar c (xs ++ c :: post) with
        | [] => [[x]]
        | h' :: t => if x == c then [] :: h' :: t else (x :: h') :: t := rfl
    rw [hstep, hrec]
    simp [hx]

/-! ### Lemmas about decimal rendering and parsing -/

theorem digitChar_isDigit {d : Nat} (h : d < 10) : (Nat.digitChar d).isDigit = true := by
  interval_cases d <;> decide

theorem digitChar_toNat {d : Nat} (h : d < 10) : (Nat.digitChar d).toNat = d + 48 := by
  interval_cases d <;> decide

theorem toDecAux_acc : ∀ (fuel n : Nat) (acc : List Char),
    toDecAux fuel n acc = toDecAux fuel n [] ++ acc := by
  intro fuel
  induction fuel with
  | zero => intro n acc; rfl
  | succ f ih =>
    intro n acc
    by_cases h : n < 10
    · simp [toDecAux, h]
    · simp only [toDecAux, if_neg h]
      rw [ih (n / 10) (Nat.digitChar (n % 10) :: acc),
          ih (n / 10) [Nat.digitChar (n % 10)], List.append_assoc]
      rfl

theorem toDecAux_fuel : ∀ (n f1 f2 : Nat), n < f1 → n < f2 →
    toDecAux f1 n [] = toDecAux f2 n [] := by
  intro n
  induction n using Nat.strong_induction_on with
  | _ n ih =>
    intro f1 f2 h1 h2
    match f1, f2 with
    | g1 + 1, g2 + 1 =>
      by_cases h : n < 10
      · simp [toDecAux, h]
      · have hn : 0 < n := by omega
        have hdiv : n / 10 < n := Nat.div_lt_self hn (by omega)
        simp only [toDecAux, if_neg h]
        rw [toDecAux_acc g1, toDecAux_acc g2,
            ih (n / 10) hdiv g1 g2 (by omega) (by omega)]

theorem toDec_lt {n : Nat} (h : n < 10) : toDec n = [Nat.digitChar n] := by
  simp [toDec, toDecAux, h]

theorem toDec_ge {n : Nat} (h : 10 ≤ n) :
    toDec n = toDec (n / 10) ++ [Nat.digitChar (n % 10)] := by
  have hdiv : n / 10 < n := Nat.div_lt_self (by omega) (by omega)
  have hstep : toDec n = toDecAux n (n / 10) [Nat.digitChar (n % 10)] := by
    show toDecAux (n + 1) n [] = _
    simp [toDecAux, show ¬n < 10 by omega]
  rw [hstep, toDecAux_acc, toDecAux_fuel (n / 10) n (n / 10 + 1) (by omega) (by omega)]
  rfl

theorem toDec_ne_nil (n : Nat) : toDec n ≠ [] := by
  by_cases h : n < 10
  · simp [toDec_lt h]
  · simp [toDec_ge (by omega : 10 ≤ n)]

theorem toDec_all_digits : ∀ n : Nat, ∀ c ∈ toDec n, c.isDigit = true := by
  intro n
  induction n using Nat.strong_induction_on with
  | _ n ih =>
    by_cases h : n < 10
    · intro c hc
      rw [toDec_lt h] at hc
      simp at hc
      exact hc ▸ digitChar_isDigit h
    · intro c hc
      rw [toDec_ge (by omega : 10 ≤ n)] at hc
      rcases List.mem_append.mp hc with hc | hc
      · exact ih (n / 10) (Nat.div_lt_self (by omega) (by omega)) c hc
      · simp at hc
        exact hc ▸ digitChar_isDigit (Nat.mod_lt n (by omega))

theorem underscore_not_mem_toDec (n : Nat) : '_' ∉ toDec n := by
  intro h
  have := toDec_all_digits n '_' h
  simp [Char.isDigit] at this

theorem foldl_toDec (n : Nat) :
    (toDec n).foldl (fun a c => a * 10 + (c.toNat - 48)) 0 = n := by
  induction n using Nat.strong_induction_on with
  | _ n ih =>
    by_cases h : n < 10
    · rw [toDec_lt h]
      simp [digitChar_toNat h]
    · rw [toDec_ge (by omega : 10 ≤ n), List.foldl_append,
          ih (n / 10) (Nat.div_lt_self (by omega) (by omega))]
      simp [digitChar_toNat (Nat.mod_lt n (by omega))]
      omega

theorem foldl_replicate_zero (z : Nat) :
    (List.replicate z '0').foldl (fun a c => a * 10 + (c.toNat - 48)) 0 = 0 := by
  induction z with
  | zero => rfl
  | succ k ih => simpa [List.replicate_succ] using ih

theorem pyToNat_padded (z n : Nat) :
    pyToNat (List.replicate z '0' ++ toDec n) = some n := by
  have hne : List.replicate z '0' ++ toDec n ≠ [] := by
    simp [toDec_ne_nil n]
  have hall : (List.replicate z '0' ++ toDec n).all Char.isDigit = true := by
    rw [List.all_eq_true]
    intro c hc
    rcases List.mem_append.mp hc with hc | hc
    · rw [List.eq_of_mem_replicate hc]; decide
    · exact toDec_all_digits n c hc
  simp only [pyToNat]
  rw [if_neg (show ¬((List.replicate z '0' ++ toDec n).isEmpty = true) by
        simpa [List.isEmpty_iff] using hne),
      if_pos hall, List.foldl_append, foldl_replicate_zero, foldl_toDec]

theorem underscore_not_mem_padded (z n : Nat) :
    '_' ∉ List.replicate z '0' ++ toDec n := by
  intro h
  rcases List.mem_append.mp h with h | h
  · have := List.eq_of_mem_replicate h
    simp at this
  · exact underscore_not_mem_toDec n h

/-- Rendering an iteration number into a checkpoint directory name and parsing
it back on resume is the identity: the substring guard, the split at the
first underscore, and the integer parse recover the original iteration. -/
theorem parseIterNum_checkpointName (n : Nat) :
    parseIterNum (checkpointName n) = some n := by
  have hsplit : "checkpoint_".toList ++ padZeros 6 (toDec n) =
      "checkpoint".toList ++ '_' :: padZeros 6 (toDec n) := by
    rfl
  have hpre : '_' ∉ "checkpoint".toList := by decide
  have hpad : '_' ∉ padZeros 6 (toDec n) := underscore_not_mem_padded _ n
  simp only [parseIterNum, checkpointName, containsSeq_append, if_pos rfl]
  rw [hsplit, splitOnChar_append hpre, splitOnChar_not_mem hpad]
  simpa [padZeros] using pyToNat_padded (6 - (toDec n).length) n

/-! ### Invariants of the training loop -/

theorem loopIter_spec (freq : Nat) (deltas : Nat → Nat) (intr : Nat → Bool) :
    ∀ l : List Nat, l.Pairwise (· < ·) → ∀ total : Nat,
    (∀ s ∈ (loopIter freq deltas intr l total).1,
        s.iteration ∈ l ∧ total ≤ s.total_episodes ∧
        s.total_episodes ≤ (loopIter freq deltas intr l total).2.1) ∧
    (loopIter freq deltas intr l total).1.Pairwise
        (fun a b => a.iteration < b.iteration ∧ a.total_episodes ≤ b.total_episodes) ∧
    total ≤ (loopIter freq deltas intr l total).2.1 ∧
    (∀ k, (loopIter freq deltas intr l total).2.2 = some k →
        k ∈ l ∧ ∀ s ∈ (loopIter freq deltas intr l total).1, s.iteration < k) := by
  intro l
  induction l with
  | nil =>
    intro _ total
    refine ⟨?_, ?_, ?_, ?_⟩ <;> simp [loopIter]
  | cons i rest ih =>
    intro hpw total
    rw [List.pairwise_cons] at hpw
    obtain ⟨hlt, hrest⟩ := hpw
    by_cases hi : intr i = true
    · have hunfold : loopIter freq deltas intr (i :: rest) total = ([], total, some i) := by
        simp [loopIter, hi]
      rw [hunfold]
      refine ⟨by simp, by simp, le_refl total, ?_⟩
      intro k hk
      simp only [Option.some_inj] at hk
      subst hk
      exact ⟨List.mem_cons_self i rest, by simp⟩
    · obtain ⟨ihA, ihB, ihC, ihD⟩ := ih hrest (total + deltas i)
      have hunfold : loopIter freq deltas intr (i :: rest) total =
          ((if i % freq == 0 then
              [⟨i, total + deltas i, false, false⟩] else []) ++
             (loopIter freq deltas intr rest (total + deltas i)).1,
           (loopIter freq deltas intr rest (total + deltas i)).2) := by
        simp [loopIter, hi]
      rw [hunfold]
      by_cases hfreq : (i % freq == 0) = true
      · rw [if_pos hfreq]
        simp only [List.cons_append, List.nil_append]
        refine ⟨?_, ?_, ?_, ?_⟩
        · intro s hs
          rcases List.mem_cons.mp hs with hs | hs
          · subst hs
            exact ⟨List.mem_cons_self i rest, Nat.le_add_right _ _, ihC⟩
          · obtain ⟨hm, hle, hub⟩ := ihA s hs
            exact ⟨List.mem_cons_of_mem i hm,
              le_trans (Nat.le_add_right _ _) hle, hub⟩
        · rw [List.pairwise_cons]
          refine ⟨?_, ihB⟩
          intro b hb
          obtain ⟨hm, hle, _⟩ := ihA b hb
          exact ⟨hlt _ hm, hle⟩
        · exact le_trans (Nat.le_add_right _ _) ihC
        · intro k hk
          obtain ⟨hkm, hks⟩ := ihD k hk
          refine ⟨List.mem_cons_of_mem i hkm, ?_⟩
          intro s hs
          rcases List.mem_cons.mp hs with hs | hs
          · subst hs; exact hlt _ hkm
          · exact hks s hs
      · rw [if_neg hfreq]
        simp only [List.nil_append]
        refine ⟨?_, ?_, ?_, ?_⟩
        · intro s hs
          obtain ⟨hm, hle, hub⟩ := ihA s hs
          exact ⟨List.mem_cons_of_mem i hm,
            le_trans (Nat.le_add_right _ _) hle, hub⟩
        · exact ihB
        · exact le_trans (Nat.le_add_right _ _) ihC
        · intro k hk
          obtain ⟨hkm, hks⟩ := ihD k hk
          exact ⟨List.mem_cons_of_mem i hkm, hks⟩

/-- C1 (amended): across one run of the orchestrator (fresh or resumed, any
cadence, any per-iteration episode counts, any cooperative cancellation
point), the iteration values of the records appended to the checkpoint index
are non-decreasing in insertion order — not strictly increasing, because the
forced final checkpoint reuses the last loop iteration number when that
iteration sat on the cadence — and the total-episode values are
non-decreasing. -/
theorem c1_index_monotone (freq ti start offset : Nat)
    (deltas : Nat → Nat) (intr : Nat → Bool) (_hfreq : 0 < freq) :
    (trainLoop freq ti start offset deltas intr).saves.Pairwise
      (fun a b => a.iteration ≤ b.iteration ∧ a.total_episodes ≤ b.total_episodes) := by
  have hpw : (List.range' start (ti + 1 - start)).Pairwise (· < ·) :=
    List.pairwise_lt_range' start (ti + 1 - start)
  obtain ⟨hA, hB, hC, hD⟩ :=
    loopIter_spec freq deltas intr (List.range' start (ti + 1 - start)) hpw offset
  have hBle : (loopIter freq deltas intr (List.range' start (ti + 1 - start)) offset).1.Pairwise
      (fun a b => a.iteration ≤ b.iteration ∧ a.total_episodes ≤ b.total_episodes) :=
    hB.imp (fun h => ⟨Nat.le_of_lt h.1, h.2⟩)
  simp only [trainLoop]
  rcases hk : (loopIter freq deltas intr (List.range' start (ti + 1 - start)) offset).2.2
    with _ | k
  · simp only
    rw [List.pairwise_append]
    refine ⟨hBle, by simp, ?_⟩
    intro a ha b hb
    simp only [List.mem_singleton] at hb
    subst hb
    obtain ⟨hm, _, hub⟩ := hA a ha
    rw [List.mem_range'] at hm
    obtain ⟨j, hj, hja⟩ := hm
    refine ⟨?_, hub⟩
    show a.iteration ≤ ti
    omega
  · simp only
    rw [List.pairwise_append]
    refine ⟨hBle, by simp, ?_⟩
    intro a ha b hb
    simp only [List.mem_singleton] at hb
    subst hb
    obtain ⟨_, hks⟩ := hD k hk
    obtain ⟨_, _, hub⟩ := hA a ha
    exact ⟨Nat.le_of_lt (hks a ha), hub⟩

/-- Witness for C1 at a concrete run. -/
theorem c1_index_monotone_witness :
    0 < 2 ∧
    (trainLoop 2 5 1 0 (fun _ => 4) (fun _ => false)).saves.Pairwise
      (fun a b => a.iteration ≤ b.iteration ∧ a.total_episodes ≤ b.total_episodes) :=
  ⟨by decide, c1_index_monotone 2 5 1 0 (fun _ => 4) (fun _ => false) (by decide)⟩

/-- Counterexample to C1 as stated: with `checkpoint_freq = 1` and a single
training iteration, the in-loop cadence checkpoint and the forced final
checkpoint are both saved at iteration 1, so the iteration values appended to
the index are not strictly increasing. -/
theorem c1_strict_increase_fails :
    (trainLoop 1 1 1 0 (fun _ => 3) (fun _ => false)).saves =
      [⟨1, 3, false, false⟩, ⟨1, 3, false, true⟩] ∧
    ¬ (trainLoop 1 1 1 0 (fun _ => 3) (fun _ => false)).saves.Pairwise
        (fun a b => a.iteration < b.iteration) := by
  exact ⟨by decide, by decide⟩

/-- C4: a run that observes the cancellation signal while the loop variable is
at iteration K saves its last checkpoint at iteration K with the
`interrupted=True` marker in the metrics passed into the metadata, persists
the metrics history, prints the exact `checkpoint_{K:06d}` name to resume
from, and returns through the `except KeyboardInterrupt` handler instead of
re-raising; resuming from that printed checkpoint name computes
`start_iteration = K + 1`. -/
theorem c4_interrupt_checkpoint_resume (freq ti start offset : Nat)
    (deltas : Nat → Nat) (intr : Nat → Bool) (K : Nat)
    (h : (trainLoop freq ti start offset deltas intr).status = .interruptedReturn K) :
    (∃ t, (trainLoop freq ti start offset deltas intr).saves.getLast? =
        some ⟨K, t, true, false⟩ ∧
        (saveMetadata cfg ⟨K, t, true, false⟩).interrupted = some true) ∧
    (trainLoop freq ti start offset deltas intr).metricsPersisted = true ∧
    (trainLoop freq ti start offset deltas intr).printedResumeName =
      some (checkpointName K) ∧
    (∀ m epi, (resumeCompute m (checkpointName K) epi).start_iteration = K + 1) := by
  simp only [trainLoop] at h ⊢
  rcases hk : (loopIter freq deltas intr (List.range' start (ti + 1 - start)) offset).2.2
    with _ | k
  · rw [hk] at h
    simp at h
  · rw [hk] at h
    simp only [RunStatus.interruptedReturn.injEq] at h
    subst h
    refine ⟨⟨(loopIter freq deltas intr (List.range' start (ti + 1 - start)) offset).2.1,
      ?_, rfl⟩, rfl, rfl, ?_⟩
    · exact List.getLast?_concat _
    · intro m epi
      simp only [resumeCompute, parseIterNum_checkpointName]
      by_cases hc : m.total_episodes.getD 0 = 0 ∧ 0 < k
      · rw [if_pos hc]
      · rw [if_neg hc]

/-- Witness for C4 at a concrete run interrupted at iteration 3. -/
theorem c4_interrupt_checkpoint_resume_witness :
    (trainLoop 5 10 1 0 (fun _ => 2) (fun i => i == 3)).status = .interruptedReturn 3 ∧
    ((∃ t, (trainLoop 5 10 1 0 (fun _ => 2) (fun i => i == 3)).saves.getLast? =
        some ⟨3, t, true, false⟩ ∧
        (saveMetadata ⟨64, 200, 4000, 1000, 10⟩ ⟨3, t, true, false⟩).interrupted = some true) ∧
     (trainLoop 5 10 1 0 (fun _ => 2) (fun i => i == 3)).metricsPersisted = true ∧
     (trainLoop 5 10 1 0 (fun _ => 2) (fun i => i == 3)).printedResumeName =
       some (checkpointName 3) ∧
     (∀ m epi, (resumeCompute m (checkpointName 3) epi).start_iteration = 3 + 1)) :=
  ⟨by decide,
   c4_interrupt_checkpoint_resume 5 10 1 0 (fun _ => 2) (fun i => i == 3) 3 (by decide)⟩

/-- Counterexample to C2 as stated: a metadata document recording observation
dimensionality 0 against a live configuration with observation size 100
differs in observation dimensionality, yet `validate_checkpoint_config`
returns `(True, [])` because the check is guarded by Python truthiness
(`if saved_obs_size and ...`). -/
theorem c2_zero_dimension_passes :
    ({ observation_size := some 0, action_size := some 7, otherPresent := true } :
        Metadata).observation_size = some 0 ∧
    (⟨100, 200, 4000, 1000, 10⟩ : Config).observation_size = 100 ∧
    validateCheckpointConfig
        { observation_size := some 0, action_size := some 7, otherPresent := true }
        ⟨100, 200, 4000, 1000, 10⟩ = ⟨true, [], []⟩ :=
  ⟨rfl, rfl, by decide⟩

/-- C2 (amended): whenever the metadata records a nonzero observation
dimensionality different from the live config's `observation_size`, or a
nonzero action dimensionality different from the fixed action size 7,
`validate_checkpoint_config` returns ok = False with a non-empty issues
list, regardless of every other field. -/
theorem c2_hard_mismatch_fails (m : Metadata) (cfg : Config)
    (h : (∃ v, m.observation_size = some v ∧ v ≠ 0 ∧ v ≠ cfg.observation_size) ∨
         (∃ w, m.action_size = some w ∧ w ≠ 0 ∧ w ≠ 7)) :
    (validateCheckpointConfig m cfg).ok = false ∧
    (validateCheckpointConfig m cfg).issues ≠ [] := by
  rcases h with ⟨v, hv, hv0, hvc⟩ | ⟨w, hw, hw0, hw7⟩
  · have hne : ¬(m.isEmptyDict = true) := by simp [Metadata.isEmptyDict, hv]
    simp only [validateCheckpointConfig, if_neg hne, hv]
    rw [if_pos ⟨hv0, hvc⟩]
    simp
  · have hne : ¬(m.isEmptyDict = true) := by simp [Metadata.isEmptyDict, hw]
    simp only [validateCheckpointConfig, if_neg hne, hw]
    rw [if_pos ⟨hw0, hw7⟩]
    simp

/-- Witness for C2 (amended) at a concrete mismatching pair. -/
theorem c2_hard_mismatch_fails_witness :
    ((∃ v, ({ observation_size := some 50, action_size := some 7, otherPresent := true } :
          Metadata).observation_size = some v ∧ v ≠ 0 ∧
          v ≠ (⟨100, 200, 4000, 1000, 10⟩ : Config).observation_size) ∨
     (∃ w, ({ observation_size := some 50, action_size := some 7, otherPresent := true } :
          Metadata).action_size = some w ∧ w ≠ 0 ∧ w ≠ 7)) ∧
    ((validateCheckpointConfig
        { observation_size := some 50, action_size := some 7, otherPresent := true }
        ⟨100, 200, 4000, 1000, 10⟩).ok = false ∧
     (validateCheckpointConfig
        { observation_size := some 50, action_size := some 7, otherPresent := true }
        ⟨100, 200, 4000, 1000, 10⟩).issues ≠ []) :=
  ⟨Or.inl ⟨50, rfl, by decide, by decide⟩,
   c2_hard_mismatch_fails _ _ (Or.inl ⟨50, rfl, by decide, by decide⟩)⟩

/-- Counterexample to C3 as stated: at the positive inputs
`train_batch_size = 100`, `max_steps = 200`, `total_episodes = 1000`,
`episodes_per_iteration` floors to 0 and the subsequent division raises
`ZeroDivisionError` instead of computing any `training_iterations`. -/
theorem c3_zero_epi_raises :
    0 < 100 ∧ 0 < 200 ∧ 0 < 1000 ∧
    computeSchedule 100 200 1000 = .error .exc :=
  ⟨by decide, by decide, by decide, rfl⟩

theorem schedule_ceil_eq (total epi : Nat) (hpos : 0 < epi) :
    (if total % epi = 0 then total / epi else total / epi + 1) =
      (total + epi - 1) / epi := by
  by_cases hr : total % epi = 0
  · rw [if_pos hr]
    obtain ⟨q, hq⟩ : epi ∣ total := Nat.dvd_iff_mod_eq_zero.mpr hr
    subst hq
    rw [Nat.mul_div_cancel_left q hpos]
    have hrw : epi * q + epi - 1 = (epi - 1) + q * epi := by
      rw [Nat.mul_comm epi q]
      omega
    rw [hrw, Nat.add_mul_div_right _ _ hpos,
      Nat.div_eq_of_lt (show epi - 1 < epi by omega)]
    omega
  · rw [if_neg hr]
    have hmod := Nat.mod_lt total hpos
    have hdm := Nat.div_add_mod total epi
    have hmul : (total / epi + 1) * epi = epi * (total / epi) + epi := by ring
    have hrw : total + epi - 1 = (total % epi - 1) + (total / epi + 1) * epi := by
      omega
    rw [hrw, Nat.add_mul_div_right _ _ hpos,
      Nat.div_eq_of_lt (show total % epi - 1 < epi by omega)]
    omega

/-- C3 (amended): for positive `train_batch_size`, `max_steps` and
`total_episodes` with `max_steps ≤ train_batch_size` (so that
`episodes_per_iteration ≥ 1` and no `ZeroDivisionError` occurs), the
orchestrator computes `episodes_per_iteration = ⌊train_batch_size /
max_steps⌋` and `training_iterations = ⌈total_episodes /
episodes_per_iteration⌉`. -/
theorem c3_schedule (tbs ms total : Nat) (hms : 0 < ms) (hle : ms ≤ tbs)
    (_htot : 0 < total) :
    computeSchedule tbs ms total =
      .ok (tbs / ms, (total + tbs / ms - 1) / (tbs / ms)) := by
  have hepi : 0 < tbs / ms := Nat.div_pos hle hms
  simp only [computeSchedule, if_neg (by omega : ¬ms = 0),
    if_neg (by omega : ¬tbs / ms = 0)]
  rw [schedule_ceil_eq total (tbs / ms) hepi]

/-- Witness for C3 (amended) at the spec's worked examples:
`4000 / 200 = 20` episodes per iteration, `1000` episodes need exactly `50`
iterations, `1010` episodes need `51`. -/
theorem c3_schedule_witness :
    (0 < 200 ∧ 200 ≤ 4000 ∧ 0 < 1000 ∧
      computeSchedule 4000 200 1000 = .ok (20, 50)) ∧
    (0 < 200 ∧ 200 ≤ 4000 ∧ 0 < 1010 ∧
      computeSchedule 4000 200 1010 = .ok (20, 51)) :=
  ⟨⟨by decide, by decide, by decide,
    c3_schedule 4000 200 1000 (by decide) (by decide) (by decide)⟩,
   ⟨by decide, by decide, by decide,
    c3_schedule 4000 200 1010 (by decide) (by decide) (by decide)⟩⟩

/-- Counterexample to C5 as stated: an existing but unparseable
`checkpoint_index.json` makes `CheckpointManager` construction raise (the
`json.load` in `_load_checkpoint_index` has no exception handler), rather
than report and proceed with an empty index. -/
theorem c5_corrupt_index_fatal :
    loadCheckpointIndex (some none) = .error .exc := rfl

/-- C5 (amended): `MetricsTracker` construction tolerates both a missing and
an unparseable metrics-history file (reporting the parse failure and
proceeding with an empty history), and `CheckpointManager` construction
tolerates a missing index file; but an existing unparseable index file
raises out of the constructor — that parse failure is fatal at startup. -/
theorem c5_load_tolerance :
    loadExistingMetrics (some none) = ([], true) ∧
    loadExistingMetrics none = ([], false) ∧
    loadCheckpointIndex none = .ok [] ∧
    loadCheckpointIndex (some none) = .error .exc :=
  ⟨rfl, rfl, rfl, rfl⟩

/-- C6: on resume the episode offset comes from the metadata's
`total_episodes` whenever that value is present and nonzero; when it is zero
or absent and the checkpoint name parses as `checkpoint_<n>` with `n > 0`,
the offset is instead estimated as `n * episodes_per_iteration` with a
printed warning. -/
theorem c6_episode_offset (m : Metadata) (name : List Char) (epi : Nat) :
    (∀ t, m.total_episodes = some t → 0 < t →
        (resumeCompute m name epi).episode_offset = t) ∧
    (m.total_episodes.getD 0 = 0 → ∀ n, parseIterNum name = some n → 0 < n →
        (resumeCompute m name epi).episode_offset = n * epi ∧
        (resumeCompute m name epi).warnedEstimate = true) := by
  constructor
  · intro t ht hpos
    rcases hp : parseIterNum name with _ | n
    · simp [resumeCompute, ht, hp]
    · simp only [resumeCompute, ht, hp, Option.getD_some]
      rw [if_neg (by omega : ¬(t = 0 ∧ 0 < n))]
  · intro h0 n hp hn
    simp only [resumeCompute, hp]
    rw [if_pos ⟨h0, hn⟩]
    exact ⟨rfl, rfl⟩

/-- Witness for C6: metadata count 42 wins over the name; a zero count with
name `checkpoint_000007` and 20 episodes per iteration estimates 140. -/
theorem c6_episode_offset_witness :
    (({ total_episodes := some 42 } : Metadata).total_episodes = some 42 ∧ 0 < 42 ∧
      (resumeCompute { total_episodes := some 42 }
        "checkpoint_000007".toList 20).episode_offset = 42) ∧
    (({ total_episodes := some 0 } : Metadata).total_episodes.getD 0 = 0 ∧
      parseIterNum "checkpoint_000007".toList = some 7 ∧ 0 < 7 ∧
      (resumeCompute { total_episodes := some 0 }
        "checkpoint_000007".toList 20).episode_offset = 7 * 20 ∧
      (resumeCompute { total_episodes := some 0 }
        "checkpoint_000007".toList 20).warnedEstimate = true) :=
  ⟨⟨rfl, by decide, (c6_episode_offset _ _ _).1 42 rfl (by decide)⟩,
   ⟨rfl, by decide, by decide,
    (c6_episode_offset { total_episodes := some 0 } "checkpoint_000007".toList 20).2
      rfl 7 (by decide) (by decide)⟩⟩

/-- C7: when the metadata and the live config agree on observation
dimensionality and on the fixed action size 7, validation returns ok = True
with an empty issues list, whatever the metadata's `max_steps` or
`train_batch_size` say — those can only produce printed warnings. -/
theorem c7_soft_mismatch_ok (m : Metadata) (cfg : Config)
    (hobs : m.observation_size = some cfg.observation_size)
    (hact : m.action_size = some 7) :
    (validateCheckpointConfig m cfg).ok = true ∧
    (validateCheckpointConfig m cfg).issues = [] := by
  have hne : ¬(m.isEmptyDict = true) := by simp [Metadata.isEmptyDict, hobs]
  simp only [validateCheckpointConfig, if_neg hne, hobs, hact]
  rw [if_neg (by simp :
        ¬(cfg.observation_size ≠ 0 ∧ cfg.observation_size ≠ cfg.observation_size))]
  rw [if_neg (by simp : ¬((7 : Nat) ≠ 0 ∧ (7 : Nat) ≠ 7))]
  exact ⟨rfl, rfl⟩

/-- Witness for C7: matching dimensionalities but different `max_steps`
(300 vs 200) and batch size (8000 vs 4000) still validate cleanly. -/
theorem c7_soft_mismatch_ok_witness :
    ({ observation_size := some 64, action_size := some 7, max_steps := some 300,
       train_batch_size := some 8000 } : Metadata).observation_size =
      some (⟨64, 200, 4000, 1000, 10⟩ : Config).observation_size ∧
    ({ observation_size := some 64, action_size := some 7, max_steps := some 300,
       train_batch_size := some 8000 } : Metadata).action_size = some 7 ∧
    ((validateCheckpointConfig
        { observation_size := some 64, action_size := some 7, max_steps := some 300,
          train_batch_size := some 8000 } ⟨64, 200, 4000, 1000, 10⟩).ok = true ∧
     (validateCheckpointConfig
        { observation_size := some 64, action_size := some 7, max_steps := some 300,
          train_batch_size := some 8000 } ⟨64, 200, 4000, 1000, 10⟩).issues = []) :=
  ⟨rfl, rfl, c7_soft_mismatch_ok _ _ rfl rfl⟩

/-- C8: a checkpoint directory with no `metadata.json` yields the empty
metadata mapping, validation of that empty metadata returns `(True, [])`
with the printed no-metadata warning, and the resume initialization
completes without error and with the learner snapshot restored. -/
theorem c8_missing_metadata_ok (cfg : Config) (name : List Char) (epi : Nat) :
    getCheckpointMetadata none = .ok {} ∧
    validateCheckpointConfig {} cfg = ⟨true, [], [.noMetadata]⟩ ∧
    (∃ out, trainInit (some ⟨none, name⟩) cfg epi = .ok out ∧
      out.restoredSnapshot = true) := by
  have hval : validateCheckpointConfig ({} : Metadata) cfg = ⟨true, [], [.noMetadata]⟩ := by
    simp [validateCheckpointConfig, Metadata.isEmptyDict]
  refine ⟨rfl, hval, ?_⟩
  refine ⟨⟨(resumeCompute {} name epi).episode_offset,
    (resumeCompute {} name epi).start_iteration, true,
    (resumeCompute {} name epi).warnedEstimate⟩, ?_, rfl⟩
  simp [trainInit, getCheckpointMetadata, hval]

/-- C9: persisting an N-record metrics history and reconstructing a tracker
over the same directory reloads exactly the same records in the same order,
with no warning. -/
theorem c9_metrics_roundtrip (history : List MetricsRecord) :
    loadExistingMetrics (saveMetricsFile history) = (history, false) := rfl

/-- C10: when a restore checkpoint is supplied whose final path component
does not contain `checkpoint_` or whose iteration field does not parse, the
initialization leaves `start_iteration` at 1 while still restoring the
learner snapshot and taking the episode offset from the metadata, with no
estimate warning. -/
theorem c10_unparseable_name_start_one (r : RestoreInfo) (cfg : Config) (epi : Nat)
    (m : Metadata) (hm : getCheckpointMetadata r.metadataFile = .ok m)
    (hval : (validateCheckpointConfig m cfg).ok = true)
    (hp : parseIterNum r.name = none) :
    trainInit (some r) cfg epi = .ok ⟨m.total_episodes.getD 0, 1, true, false⟩ := by
  simp only [trainInit, hm, hval, if_true, resumeCompute, hp]

/-- Witness for C10 at a restore path named `my_snapshot` with metadata
counting 42 episodes. -/
theorem c10_unparseable_name_start_one_witness :
    (getCheckpointMetadata
        (some (some { total_episodes := some 42, otherPresent := true })) =
          .ok { total_episodes := some 42, otherPresent := true } ∧
     (validateCheckpointConfig { total_episodes := some 42, otherPresent := true }
        ⟨64, 200, 4000, 1000, 10⟩).ok = true ∧
     parseIterNum "my_snapshot".toList = none) ∧
    trainInit
        (some ⟨some (some { total_episodes := some 42, otherPresent := true }),
          "my_snapshot".toList⟩)
        ⟨64, 200, 4000, 1000, 10⟩ 20 = .ok ⟨42, 1, true, false⟩ :=
  ⟨⟨rfl, by decide, by decide⟩,
   c10_unparseable_name_start_one
     ⟨some (some { total_episodes := some 42, otherPresent := true }),
       "my_snapshot".toList⟩
     ⟨64, 200, 4000, 1000, 10⟩ 20 { total_episodes := some 42, otherPresent := true }
     rfl (by decide) (by decide)⟩

end HideSeek
